import Mathlib

/-!
Verification development for the Contract Lifecycle and Consistency Service
of the gigacounts backend.

The definitions below are a shallow embedding of the TypeScript source:

- `createContract`, `changeStatus`, `queryBuilder` scope predicates and
  `getContractList` from `src/app/Services/Attachment.ts` (the contract
  service file);
- `contractListDTO`, `formatLtaList` and `evaluateMeasures` from
  `src/app/DTOs/Contract.ts`.

Stateful code is embedded as explicit state passing over a `DB` record; the
storage transaction of the source is embedded by running the body of the
`try` block on a working copy of the state and discarding it (returning the
original state) whenever the body throws, which is exactly the observable
behaviour of begin/commit/rollback. Thrown exceptions are embedded as
`Except` errors carrying the same message strings as the source.

Helper modules of the repository that are not part of the source tree
(`App/Helpers/constants`, `App/Helpers/utils`, `App/Services/Metric`,
`App/Services/User`) are modelled from the spec; each such definition says
so in its doc comment.
-/

set_option maxRecDepth 4096

deriving instance DecidableEq for Except

/-- Semantic error kinds thrown by the service, mirroring the exception
classes of the source: `NotFoundException` (HTTP status 404),
`InvalidStatusException` (400), `FailedDependencyException` (424) and a raw
storage/driver error which carries no HTTP status field. -/
inductive Err where
  | notFound (msg : String)
  | invalidStatus (msg : String)
  | dependencyFailure (msg : String)
  | storage (msg : String)
deriving DecidableEq

/-- The `status` field carried by each exception object; raw storage errors
have none (`error.status` is `undefined` in the source). -/
def errStatus : Err → Option Nat
  | .notFound _ => some 404
  | .invalidStatus _ => some 400
  | .dependencyFailure _ => some 424
  | .storage _ => none

/-- JavaScript truthiness of a caught exception value. Every exception the
service can catch is an object, and objects are always truthy, so this is
constantly `true`; it embeds the test `if (error)` in the catch block of
`changeStatus`. -/
def errTruthy : Err → Bool := fun _ => true

/-- JavaScript truthiness of an optional numeric field, as used by the
source in tests such as `if (data.draftId)` and `if (!userId)`:
`undefined` and `0` are falsy, every other number is truthy. -/
def optTruthy : Option Nat → Bool
  | none => false
  | some n => n != 0

/-- Modelled from the spec: the contract status enum of
`App/Helpers/constants` (not under the source tree) is a strictly linear,
forward-only integer-ordered sequence starting `Draft(0) -> Sent(1) -> ...`
up to a terminal state. The proofs only depend on `Draft = 0`, `Sent = 1`
and on membership `s < numContractStatuses`. -/
def numContractStatuses : Nat := 6

/-- Status value `Draft` of the contract status enum. -/
def ContractStatus.Draft : Nat := 0

/-- Status value `Sent` of the contract status enum. -/
def ContractStatus.Sent : Nat := 1

/-- Membership test of the numeric status enum, embedding the source test
`newStatus in ContractStatus` (true exactly on the numeric enum members). -/
def inContractStatus (s : Nat) : Bool := decide (s < numContractStatuses)

/-- A persisted Contract row. -/
structure ContractRow where
  id : Nat
  name : String
  countryId : Nat
  governmentBehalf : Bool
  ltaId : Nat
  currencyId : Nat
  budget : String
  frequencyId : Nat
  startDate : Nat
  endDate : Nat
  ispId : Nat
  createdBy : Nat
  status : Nat
deriving DecidableEq

/-- A persisted Draft row (only the fields read by `createContract`). -/
structure DraftRow where
  id : Nat
  createdAt : Nat
deriving DecidableEq

/-- The structured `data` payload stored on a status transition when a
contract is created from a draft. -/
structure TransitionData where
  draftId : Nat
  draftCreation : Nat
deriving DecidableEq

/-- A persisted StatusTransition audit row. -/
structure StatusTransitionRow where
  who : Nat
  contractId : Nat
  initialStatus : Nat
  finalStatus : Nat
  data : Option TransitionData
deriving DecidableEq

/-- The storage state visible to the service: persisted rows plus the id
sets that foreign keys of the create path must reference (`schools`,
`attachments`, `metrics` hold the existing ids of those lookup tables). -/
structure DB where
  contracts : List ContractRow
  drafts : List DraftRow
  schools : List Nat
  attachments : List Nat
  metrics : List Nat
  contractSchools : List (Nat × Nat)
  contractAttachments : List (Nat × Nat)
  expectedMetrics : List (Nat × Nat × Int)
  statusTransitions : List StatusTransitionRow
  nextContractId : Nat
deriving DecidableEq

/-- The `createContract` payload (interface `ContractCreation` of the
source). The nested `attachments.attachments`, `schools.schools` and
`expectedMetrics.metrics` arrays are flattened to their id (respectively
(metricId, value)) lists, which is all the source reads from them. The
`status` field is not part of the TypeScript interface but a JSON caller
could still send it; the source spreads the payload and then forces
`status`, so the field is carried here to state that it is ignored. -/
structure ContractCreation where
  draftId : Option Nat
  countryId : Nat
  governmentBehalf : Bool
  name : String
  ltaId : Nat
  currencyId : Nat
  budget : String
  frequencyId : Nat
  startDate : Nat
  endDate : Nat
  ispId : Nat
  createdBy : Nat
  attachments : Option (List Nat)
  schools : List Nat
  expectedMetrics : List (Nat × Int)
  status : Option Nat
deriving DecidableEq

/-- Modelled from the spec: `metricService.createExpectedMetrics`
(`App/Services/Metric`, not under the source tree) inserts one
ExpectedMetric row per (metricId, value) pair referencing the new contract;
an invalid metric id makes the insert fail with a foreign-key violation,
a raw storage error. -/
def createExpectedMetrics (ems : List (Nat × Int)) (contractId : Nat) (db : DB) :
    Except Err DB :=
  if ems.all (fun m => db.metrics.contains m.1) then
    .ok { db with
      expectedMetrics := db.expectedMetrics ++ ems.map (fun m => (contractId, m.1, m.2)) }
  else .error (.storage "foreign key violation on expected_metrics.metric_id")

/-- The body of the `try` block of `createContract`
(`src/app/Services/Attachment.ts`, lines 111-152), run against a working
copy of the state: insert the Contract row with `status` forced to `Sent`,
attach attachments and schools (an invalid referenced id is a foreign-key
violation, a raw storage error), create the expected metrics, then promote
the optional draft: a missing draft throws `NotFoundException`
(`Draft not found`), a found draft yields one StatusTransition row
`Draft -> Sent` carrying the draft id and original creation timestamp, and
the draft row is deleted. -/
def createContractTry (d : ContractCreation) (db : DB) : Except Err (ContractRow × DB) :=
  let c : ContractRow :=
    { id := db.nextContractId, name := d.name, countryId := d.countryId,
      governmentBehalf := d.governmentBehalf, ltaId := d.ltaId,
      currencyId := d.currencyId, budget := d.budget, frequencyId := d.frequencyId,
      startDate := d.startDate, endDate := d.endDate, ispId := d.ispId,
      createdBy := d.createdBy, status := ContractStatus.Sent }
  let db1 := { db with contracts := db.contracts ++ [c],
                       nextContractId := db.nextContractId + 1 }
  let atts := d.attachments.getD []
  if !(atts.all (fun a => db1.attachments.contains a)) then
    .error (.storage "foreign key violation on contract_attachments.attachment_id")
  else
    let db2 := { db1 with
      contractAttachments := db1.contractAttachments ++ atts.map (fun a => (c.id, a)) }
    if !(d.schools.all (fun s => db2.schools.contains s)) then
      .error (.storage "foreign key violation on school_contracts.school_id")
    else
      let db3 := { db2 with
        contractSchools := db2.contractSchools ++ d.schools.map (fun s => (c.id, s)) }
      match createExpectedMetrics d.expectedMetrics c.id db3 with
      | .error e => .error e
      | .ok db4 =>
        match d.draftId with
        | none => .ok (c, db4)
        | some did =>
          if did == 0 then .ok (c, db4)
          else
            match db4.drafts.find? (fun r => r.id == did) with
            | none => .error (.notFound "Draft not found")
            | some draft =>
              let st : StatusTransitionRow :=
                { who := d.createdBy, contractId := c.id,
                  initialStatus := ContractStatus.Draft,
                  finalStatus := ContractStatus.Sent,
                  data := some { draftId := draft.id, draftCreation := draft.createdAt } }
              .ok (c, { db4 with
                statusTransitions := db4.statusTransitions ++ [st],
                drafts := db4.drafts.filter (fun r => r.id != did) })

/-- The contract creation orchestrator `createContract`
(`src/app/Services/Attachment.ts`, lines 109-162). On success the committed
state is returned; on any thrown error the transaction is rolled back (the
original state is returned) and the catch block re-throws errors with HTTP
status 404 unchanged while every other error is replaced by
`FailedDependencyException`. -/
def createContract (d : ContractCreation) (db : DB) : Except Err ContractRow × DB :=
  match createContractTry d db with
  | .ok (c, db2) => (.ok c, db2)
  | .error e =>
    (if errStatus e == some 404 then .error e
     else .error (.dependencyFailure "Some dependency failed while creating contract"), db)

/-- The body of the `try` block of `changeStatus`
(`src/app/Services/Attachment.ts`, lines 221-245), run against a working
copy of the state. `stFault` injects a raw storage failure at the
StatusTransition insert, modelling an unexpected failure inside the
transaction. -/
def changeStatusTry (contractId newStatus userId : Nat) (stFault : Bool) (db : DB) :
    Except Err (ContractRow × DB) :=
  match db.contracts.find? (fun c => c.id == contractId) with
  | none => .error (.notFound "Contract not found")
  | some contract =>
    let oldStatus := contract.status
    if oldStatus + 1 != newStatus || !(inContractStatus newStatus) then
      .error (.invalidStatus "Invalid status")
    else if stFault then
      .error (.storage "insert into status_transitions failed")
    else
      let st : StatusTransitionRow :=
        { who := userId, contractId := contract.id, initialStatus := oldStatus,
          finalStatus := newStatus, data := none }
      .ok ({ contract with status := newStatus },
        { db with
          statusTransitions := db.statusTransitions ++ [st],
          contracts := db.contracts.map
            (fun c => if c.id == contractId then { c with status := newStatus } else c) })

/-- The status transition engine `changeStatus`
(`src/app/Services/Attachment.ts`, lines 218-255). A falsy `userId` returns
before the transaction is even opened. On a thrown error the transaction is
rolled back and the catch block runs `if (error) throw error`; since every
caught exception value is truthy this always re-throws, and the
`FailedDependencyException` construction below it is unreachable, which the
embedding preserves verbatim via `errTruthy`. -/
def changeStatus (contractId newStatus : Nat) (userId : Option Nat) (stFault : Bool)
    (db : DB) : Except Err (Option ContractRow) × DB :=
  if !(optTruthy userId) then (.ok none, db)
  else
    match changeStatusTry contractId newStatus (userId.getD 0) stFault db with
    | .ok (c, db2) => (.ok (some c), db2)
    | .error e =>
      (if errTruthy e then .error e
       else .error (.dependencyFailure "Some dependency failed while updating contract status"),
       db)

/-- One averaged measure row for a school, as produced by the grouped
average query of `getContractList`: the metric id and the averaged value
(`$extras.avg` in the source). -/
structure SchoolMeasure where
  metricId : Nat
  avg : Int
deriving DecidableEq

/-- One ExpectedMetric row as read by the classifier: metric id and target
value. -/
structure ExpectedMetricRow where
  metricId : Nat
  value : Int
deriving DecidableEq

/-- The three connectivity buckets a school is classified into. -/
inductive ConnectionBucket where
  | withoutConnection
  | atLeastOneBellowAvg
  | allEqualOrAboveAvg
deriving DecidableEq

/-- The loop of `evaluateMeasures` over the expected metrics
(`src/app/DTOs/Contract.ts`, lines 313-320): for each expected metric,
`findIndex` looks the metric up among the school measures; a missing row
(`!schoolMeasures[index]`, index -1) or an average strictly below the
target short-circuits to `atLeastOneBellowAvg`. -/
def evalLoop (schoolMeasures : List SchoolMeasure) :
    List ExpectedMetricRow → ConnectionBucket
  | [] => .allEqualOrAboveAvg
  | em :: rest =>
    match schoolMeasures.find? (fun sm => sm.metricId == em.metricId) with
    | none => .atLeastOneBellowAvg
    | some sm =>
      if sm.avg < em.value then .atLeastOneBellowAvg
      else evalLoop schoolMeasures rest

/-- The connectivity classifier `evaluateMeasures`
(`src/app/DTOs/Contract.ts`, lines 307-322): an empty measures array is
`withoutConnection`, otherwise the expected metrics are scanned in order by
`evalLoop`. -/
def evaluateMeasures (schoolMeasures : List SchoolMeasure)
    (expectedMetrics : List ExpectedMetricRow) : ConnectionBucket :=
  if schoolMeasures.length == 0 then .withoutConnection
  else evalLoop schoolMeasures expectedMetrics

/-- An untyped JavaScript value holding school measures: either an array of
averaged measure rows or a plain object keyed by strings. The service
builds a flat object keyed by school name whose values are arrays; the DTO
indexes it as a nested object, so both shapes must be representable. -/
inductive MVal where
  | arr : List SchoolMeasure → MVal
  | obj : List (String × MVal) → MVal

/-- Property lookup on the entry list of an object value. -/
def objIndexEntries : List (String × MVal) → String → Option MVal
  | [], _ => none
  | (k, v) :: rest, key => if k == key then some v else objIndexEntries rest key

/-- JavaScript property access `value[key]`: a string-keyed read on an
array yields `undefined` (no such property), on an object it is an entry
lookup. -/
def objIndex : MVal → String → Option MVal
  | .arr _, _ => none
  | .obj es, key => objIndexEntries es key

/-- The evaluation of `schoolsMeasures[contract.name][school.name]`
followed by the `evaluateMeasures` call on the result
(`src/app/DTOs/Contract.ts`, lines 245-249): if the outer read is
`undefined` the inner read throws a TypeError; if the inner read is
`undefined` then `evaluateMeasures` dereferences `.length` of `undefined`
and throws; an object argument has `.length === undefined`, which is falsy,
so the classifier returns `withoutConnection` for it. -/
def evalForSchool (ms : MVal) (contractName schoolName : String)
    (ems : List ExpectedMetricRow) : Except String ConnectionBucket :=
  match objIndex ms contractName with
  | none => .error "TypeError: Cannot read properties of undefined"
  | some inner =>
    match objIndex inner schoolName with
    | none => .error "TypeError: Cannot read properties of undefined (reading length)"
    | some (.arr rows) => .ok (evaluateMeasures rows ems)
    | some (.obj _) => .ok .withoutConnection

/-- Modelled from the spec: `utils.getPercentage` (`App/Helpers/utils`, not
under the source tree) computes
`part == 0 || total == 0 ? 0 : Math.round(part / total * 100)`; for
nonnegative arguments `Math.round x = floor (x + 1/2)`, here written with
natural division. -/
def getPercentage (total part : Nat) : Nat :=
  if part == 0 || total == 0 then 0
  else (200 * part + total) / (2 * total)

/-- Modelled from the spec: the reverse mapping `ContractStatus[status]` of
the numeric enum in `App/Helpers/constants` (not under the source tree);
the spec fixes the first two labels `Draft(0)` and `Sent(1)` and leaves the
remaining labels domain-specific. -/
def statusName (s : Nat) : String :=
  if s == 0 then "Draft" else if s == 1 then "Sent" else "Status " ++ toString s

/-- A school row as preloaded on a contract: id and name. -/
structure SchoolRow where
  id : Nat
  name : String
deriving DecidableEq

/-- A draft row with its preloaded relations, as consumed by
`contractListDTO`. `ltaName` is the name of the preloaded `lta` relation,
read only when `ltaId` is truthy. -/
structure DraftFull where
  id : Nat
  name : String
  ispName : Option String
  countryName : Option String
  numSchools : Option Nat
  ltaId : Option Nat
  ltaName : String
deriving DecidableEq

/-- A contract row with its preloaded relations and aggregates, as consumed
by `contractListDTO`: `budget` is the already `parseInt`-ed budget and
`totalPayments` the payments sum aggregate. -/
structure ContractFull where
  id : Nat
  name : String
  ispName : String
  status : Nat
  countryName : String
  schools : List SchoolRow
  expectedMetrics : List ExpectedMetricRow
  budget : Nat
  totalPayments : Nat
  ltaId : Option Nat
  ltaName : String
deriving DecidableEq

/-- An LTA row as returned by the scoped LTA query. -/
structure LtaData where
  id : Nat
  name : String
deriving DecidableEq

/-- One entry of the list view (interface `ContractList` of the source);
draft entries leave the contract-only fields `none`. -/
structure ContractListEntry where
  id : Nat
  name : String
  isp : Option String
  status : String
  countryName : Option String
  schoolsConnection : Option (Nat × Nat × Nat)
  numberOfSchools : Option Nat
  totalSpent : Option Nat
  ltaId : Option Nat
deriving DecidableEq

/-- The result of `contractListDTO`: name-keyed LTA buckets and the flat
entry list. JavaScript objects preserve key insertion order, so the bucket
map is an ordered association list. -/
structure ContractListResult where
  ltas : List (String × List ContractListEntry)
  contracts : List ContractListEntry
deriving DecidableEq

/-- Read of a string key on an ordered association list (JavaScript object
property read). -/
def getKey {A : Type} : List (String × A) → String → Option A
  | [], _ => none
  | (k, v) :: rest, key => if k == key then some v else getKey rest key

/-- Write of a string key on an ordered association list: an existing key
keeps its position and gets the new value, a new key is appended, which is
how JavaScript object spread and index assignment behave. -/
def setKey {A : Type} : List (String × A) → String → A → List (String × A)
  | [], key, v => [(key, v)]
  | (k, w) :: rest, key, v =>
    if k == key then (k, v) :: rest else (k, w) :: setKey rest key v

/-- The bucket pre-seeding `formatLtaList` (`src/app/DTOs/Contract.ts`,
lines 297-305): reduce the visible LTA rows into an object with one empty
array per LTA name. -/
def formatLtaList (ltas : List LtaData) : List (String × List ContractListEntry) :=
  ltas.foldl (fun agg cur => setKey agg cur.name []) []

/-- The draft entry built by the drafts pass of `contractListDTO`
(`src/app/DTOs/Contract.ts`, lines 211-225). -/
def draftEntry (d : DraftFull) : ContractListEntry :=
  { id := d.id, name := d.name, isp := d.ispName, status := "Draft",
    countryName := d.countryName, schoolsConnection := none,
    numberOfSchools := d.numSchools, totalSpent := none, ltaId := d.ltaId }

/-- The per-school classification fold of the contracts pass: each school
of the contract is classified by `evalForSchool` and tallied into the three
counters (withoutConnection, atLeastOneBellowAvg, allEqualOrAboveAvg). -/
def connFold (ms : MVal) (contractName : String) (ems : List ExpectedMetricRow) :
    Nat × Nat × Nat → List SchoolRow → Except String (Nat × Nat × Nat)
  | acc, [] => .ok acc
  | acc, s :: rest =>
    match evalForSchool ms contractName s.name ems with
    | .error e => .error e
    | .ok .withoutConnection => connFold ms contractName ems (acc.1 + 1, acc.2.1, acc.2.2) rest
    | .ok .atLeastOneBellowAvg => connFold ms contractName ems (acc.1, acc.2.1 + 1, acc.2.2) rest
    | .ok .allEqualOrAboveAvg => connFold ms contractName ems (acc.1, acc.2.1, acc.2.2 + 1) rest

/-- The schoolsConnection counters of one contract
(`src/app/DTOs/Contract.ts`, lines 237-251): counters start at zero and the
schools are only scanned when the contract has any. -/
def schoolsConnCounts (ms : MVal) (c : ContractFull) : Except String (Nat × Nat × Nat) :=
  if c.schools.length == 0 then .ok (0, 0, 0)
  else connFold ms c.name c.expectedMetrics (0, 0, 0) c.schools

/-- The contract entry built by the contracts pass of `contractListDTO`
(`src/app/DTOs/Contract.ts`, lines 253-280), with the three counters turned
into percentages of the school count. -/
def contractEntry (ms : MVal) (c : ContractFull) : Except String ContractListEntry :=
  match schoolsConnCounts ms c with
  | .error e => .error e
  | .ok counts =>
    .ok { id := c.id, name := c.name, isp := some c.ispName,
          status := statusName c.status, countryName := some c.countryName,
          schoolsConnection := some
            (getPercentage c.schools.length counts.1,
             getPercentage c.schools.length counts.2.1,
             getPercentage c.schools.length counts.2.2),
          numberOfSchools := some c.schools.length,
          totalSpent := some (getPercentage c.budget c.totalPayments),
          ltaId := c.ltaId }

/-- The placement step shared by both passes of `contractListDTO`: a truthy
`ltaId` routes the entry into the bucket named after the preloaded LTA if
such a bucket exists (`if (ltas[name]) push`), and drops the entry
otherwise; a falsy `ltaId` appends the entry to the flat list. -/
def placeEntry
    (acc : List (String × List ContractListEntry) × List ContractListEntry)
    (ltaId : Option Nat) (ltaName : String) (e : ContractListEntry) :
    List (String × List ContractListEntry) × List ContractListEntry :=
  if optTruthy ltaId then
    match getKey acc.1 ltaName with
    | some lst => (setKey acc.1 ltaName (lst ++ [e]), acc.2)
    | none => acc
  else (acc.1, acc.2 ++ [e])

/-- The drafts pass of `contractListDTO` (`src/app/DTOs/Contract.ts`,
lines 210-234). -/
def draftsPass :
    List (String × List ContractListEntry) × List ContractListEntry →
    List DraftFull →
    List (String × List ContractListEntry) × List ContractListEntry
  | acc, [] => acc
  | acc, d :: rest => draftsPass (placeEntry acc d.ltaId d.ltaName (draftEntry d)) rest

/-- The contracts pass of `contractListDTO` (`src/app/DTOs/Contract.ts`,
lines 236-289); building an entry can throw while reading the measures, so
the pass is fallible. -/
def contractsPass (ms : MVal) :
    List (String × List ContractListEntry) × List ContractListEntry →
    List ContractFull →
    Except String (List (String × List ContractListEntry) × List ContractListEntry)
  | acc, [] => .ok acc
  | acc, c :: rest =>
    match contractEntry ms c with
    | .error e => .error e
    | .ok e => contractsPass ms (placeEntry acc c.ltaId c.ltaName e) rest

/-- The list view builder `contractListDTO` (`src/app/DTOs/Contract.ts`,
lines 201-295): pre-seed one bucket per visible LTA, run the drafts pass,
then the contracts pass. -/
def contractListDTO (data : List ContractFull) (drafts : List DraftFull)
    (ltasData : List LtaData) (schoolsMeasures : MVal) :
    Except String ContractListResult :=
  let ltas0 := formatLtaList ltasData
  match contractsPass schoolsMeasures (draftsPass (ltas0, []) drafts) data with
  | .error e => .error e
  | .ok acc => .ok { ltas := acc.1, contracts := acc.2 }

/-- The inner loop of the measures collection of `getContractList`: one
averaged measures array is stored per school, keyed by school name. -/
def addSchoolsMeasures (store : Nat → List SchoolMeasure) :
    List (String × MVal) → List SchoolRow → List (String × MVal)
  | acc, [] => acc
  | acc, s :: rest => addSchoolsMeasures store (setKey acc s.name (MVal.arr (store s.id))) rest

/-- The measures collection of `getContractList`
(`src/app/Services/Attachment.ts`, lines 93-104): contracts without schools
are skipped, every school of every other contract contributes its averaged
measures under its name. `store` abstracts the averaged Measure query per
school id. -/
def buildSchoolsMeasures (store : Nat → List SchoolMeasure) :
    List (String × MVal) → List ContractFull → List (String × MVal)
  | acc, [] => acc
  | acc, c :: rest =>
    if c.schools.length == 0 then buildSchoolsMeasures store acc rest
    else buildSchoolsMeasures store (addSchoolsMeasures store acc c.schools) rest

/-- The read path `getContractList` (`src/app/Services/Attachment.ts`,
lines 75-107) after the scoped queries have produced the visible contracts,
drafts and LTAs: build the school-name-keyed measures object and hand it to
`contractListDTO`. -/
def getContractList (contracts : List ContractFull) (drafts : List DraftFull)
    (ltas : List LtaData) (store : Nat → List SchoolMeasure) :
    Except String ContractListResult :=
  contractListDTO contracts drafts ltas (MVal.obj (buildSchoolsMeasures store [] contracts))

/-- The user object consumed by the access scope resolver: name, country
and resolved role names. -/
structure UserQ where
  name : String
  countryId : Nat
  roles : List String
deriving DecidableEq

/-- Modelled from the spec: the role name constants of
`App/Helpers/constants` (not under the source tree); only their
distinctness matters. -/
def gigaAdminRole : String := "Giga Admin"

/-- Modelled from the spec: the government role name constant. -/
def governmentRole : String := "Government"

/-- Modelled from the spec: the internet service provider role name
constant. -/
def ispRole : String := "ISP"

/-- Modelled from the spec: `userService.checkUserRole`
(`App/Services/User`, not under the source tree) is the capability check
`hasAnyRole(user, roleNames)`: true when some role of the user is among the
given names. -/
def checkUserRole (u : UserQ) (roleNames : List String) : Bool :=
  u.roles.any (fun r => roleNames.contains r)

/-- A contract row as seen by the scope predicate: country, the
government-behalf flag and the name of the linked ISP. -/
structure ContractScopeRow where
  countryId : Nat
  governmentBehalf : Bool
  ispName : String
deriving DecidableEq

/-- A draft row as seen by the scope predicate. -/
structure DraftScopeRow where
  countryId : Nat
  governmentBehalf : Bool
  ispName : String
deriving DecidableEq

/-- An LTA row as seen by the scope predicate: country and the names of the
ISPs linked through the many-to-many relation. -/
structure LtaScopeRow where
  countryId : Nat
  ispNames : List String
deriving DecidableEq

/-- The contract filter accumulated by `queryBuilder`
(`src/app/Services/Attachment.ts`, lines 181-216): no clause for a
gigaAdmin user; otherwise a country clause, plus a governmentBehalf clause
for government users, plus an ISP-name clause for isp users. -/
def contractScope (u : UserQ) (c : ContractScopeRow) : Bool :=
  if !(checkUserRole u [gigaAdminRole]) then
    (c.countryId == u.countryId)
    && (if checkUserRole u [governmentRole] then c.governmentBehalf else true)
    && (if checkUserRole u [ispRole] then c.ispName == u.name else true)
  else true

/-- The draft filter accumulated by `queryBuilder`: same clauses as the
contract filter. -/
def draftScope (u : UserQ) (d : DraftScopeRow) : Bool :=
  if !(checkUserRole u [gigaAdminRole]) then
    (d.countryId == u.countryId)
    && (if checkUserRole u [governmentRole] then d.governmentBehalf else true)
    && (if checkUserRole u [ispRole] then d.ispName == u.name else true)
  else true

/-- The LTA filter accumulated by `queryBuilder`: a country clause and, for
isp users, a clause requiring the linked ISP set to contain an ISP with the
user name; the government branch adds no LTA clause. -/
def ltaScope (u : UserQ) (l : LtaScopeRow) : Bool :=
  if !(checkUserRole u [gigaAdminRole]) then
    (l.countryId == u.countryId)
    && (if checkUserRole u [ispRole] then l.ispNames.contains u.name else true)
  else true

/-- A concrete contract row at status `Sent`, used by concrete witnesses. -/
def contractOne : ContractRow :=
  { id := 1, name := "Contract 1", countryId := 1, governmentBehalf := false,
    ltaId := 2, currencyId := 1, budget := "1000", frequencyId := 1, startDate := 0,
    endDate := 0, ispId := 1, createdBy := 7, status := 1 }

/-- A concrete storage state holding `contractOne`, used by concrete
witnesses. -/
def dbOne : DB :=
  { contracts := [contractOne], drafts := [], schools := [10], attachments := [],
    metrics := [3, 4], contractSchools := [], contractAttachments := [],
    expectedMetrics := [], statusTransitions := [], nextContractId := 2 }

/-- C6. For every contract id and requested status, calling the transition
operation with a missing acting user id performs no writes and returns
without error: the guard `if (!userId) return` exits before the transaction
is opened, so the state is returned unchanged and the result is the
(undefined) no-op value. -/
theorem changeStatus_no_actor_noop (cid ns : Nat) (fault : Bool) (db : DB) :
    changeStatus cid ns none fault db = (.ok none, db) := rfl

/-- C4. For a present (nonzero) acting user and no injected fault, the
transition operation fails with `NotFound` when no contract matches the id;
for a found contract at status N it fails with `InvalidStatus` whenever the
requested status is not exactly N + 1 or is not a member of the status
enum, and when the requested status is exactly N + 1 and a member it
succeeds, the persisted contract status becomes N + 1 and exactly one
StatusTransition audit row recording old status, new status and the actor
is appended. -/
theorem changeStatus_forward_only (db : DB) (cid ns u : Nat) (hu : u ≠ 0) :
    (db.contracts.find? (fun c => c.id == cid) = none →
      changeStatus cid ns (some u) false db =
        (.error (.notFound "Contract not found"), db)) ∧
    ∀ c, db.contracts.find? (fun c2 => c2.id == cid) = some c →
      ((ns ≠ c.status + 1 ∨ ¬ ns < numContractStatuses) →
        changeStatus cid ns (some u) false db =
          (.error (.invalidStatus "Invalid status"), db)) ∧
      (ns = c.status + 1 → ns < numContractStatuses →
        changeStatus cid ns (some u) false db =
          (.ok (some { c with status := ns }),
           { db with
             statusTransitions := db.statusTransitions ++
               [{ who := u, contractId := c.id, initialStatus := c.status,
                  finalStatus := ns, data := none }],
             contracts := db.contracts.map
               (fun x => if x.id == cid then { x with status := ns } else x) })) := by
  have hu2 : (u != 0) = true := by simpa using hu
  refine ⟨?_, ?_⟩
  · intro hfind
    simp [changeStatus, optTruthy, hu2, changeStatusTry, hfind, errTruthy]
  · intro c hfind
    refine ⟨?_, ?_⟩
    · intro hbad
      have hcond : (c.status + 1 != ns || !(inContractStatus ns)) = true := by
        rcases hbad with h | h
        · have hb : (c.status + 1 != ns) = true := by
            simp only [bne_iff_ne, ne_eq]
            omega
          simp [hb]
        · have hb : inContractStatus ns = false := by
            simp [inContractStatus]
            omega
          simp [hb]
      simp [changeStatus, optTruthy, hu2, changeStatusTry, hfind, hcond, errTruthy]
    · intro h1 h2
      subst h1
      have hcond : (c.status + 1 != c.status + 1 || !(inContractStatus (c.status + 1))) = false := by
        simp [inContractStatus]
        omega
      have hmem : inContractStatus (c.status + 1) = true := by
        simp [inContractStatus]
        omega
      simp [changeStatus, optTruthy, hu2, changeStatusTry, hfind, hcond, hmem]

/-- Concrete instantiation of the forward-only transition theorem on
`dbOne`: from status 1, requesting status 2 succeeds with status 2
persisted and one audit row, while requesting status 3 (skip) and status 1
(re-apply) both fail with `InvalidStatus`. -/
theorem changeStatus_forward_only_witness :
    changeStatus 1 2 (some 7) false dbOne =
      (.ok (some { contractOne with status := 2 }),
       { dbOne with
         statusTransitions :=
           [{ who := 7, contractId := 1, initialStatus := 1, finalStatus := 2, data := none }],
         contracts := [{ contractOne with status := 2 }] }) ∧
    changeStatus 1 3 (some 7) false dbOne = (.error (.invalidStatus "Invalid status"), dbOne) ∧
    changeStatus 1 1 (some 7) false dbOne = (.error (.invalidStatus "Invalid status"), dbOne) := by
  refine ⟨?_, ?_, ?_⟩
  · exact (((changeStatus_forward_only dbOne 1 2 7 (by decide)).2 contractOne
      (by decide)).2 (by decide) (by decide)).trans (by decide)
  · exact ((changeStatus_forward_only dbOne 1 3 7 (by decide)).2 contractOne
      (by decide)).1 (Or.inl (by decide))
  · exact ((changeStatus_forward_only dbOne 1 1 7 (by decide)).2 contractOne
      (by decide)).1 (Or.inl (by decide))

/-- C5 (refuting the normalization half). An unexpected storage failure
inside the `changeStatus` transaction is rolled back, but it is surfaced to
the caller as the raw storage error, not as `DependencyFailure`: the catch
block runs `if (error) throw error`, which always re-throws because every
caught exception value is truthy, so the `FailedDependencyException` below
it is dead code. Concretely, from `dbOne` a valid 1 -> 2 transition whose
StatusTransition insert fails returns the raw storage error with the state
unchanged. -/
theorem changeStatus_fault_not_normalized :
    changeStatus 1 2 (some 7) true dbOne =
      (.error (.storage "insert into status_transitions failed"), dbOne) ∧
    Err.storage "insert into status_transitions failed" ≠
      Err.dependencyFailure "Some dependency failed while updating contract status" := by
  exact ⟨by decide, by decide⟩

/-- A concrete storage state with one draft (id 42), one school (10) and
two metrics (3, 4), used by concrete witnesses of the create path. -/
def dbSeed : DB :=
  { contracts := [], drafts := [{ id := 42, createdAt := 777 }], schools := [10],
    attachments := [], metrics := [3, 4], contractSchools := [], contractAttachments := [],
    expectedMetrics := [], statusTransitions := [], nextContractId := 5 }

/-- A concrete valid creation payload against `dbSeed`, promoting draft 42;
it carries an explicit `status` field that the service must ignore. -/
def createPayload : ContractCreation :=
  { draftId := some 42, countryId := 1, governmentBehalf := false, name := "Contract 1",
    ltaId := 2, currencyId := 1, budget := "1000", frequencyId := 1, startDate := 0,
    endDate := 0, ispId := 1, createdBy := 7, attachments := none, schools := [10],
    expectedMetrics := [(3, 1), (4, 1)], status := some 0 }

/-- Helper: every error exit of the `createContract` transaction body is
either the draft-lookup `NotFound` (in which case the payload carried a
truthy draft id with no matching draft row) or a raw storage error from a
foreign-key violation. -/
theorem createContractTry_error_cases (d : ContractCreation) (db : DB) (e : Err)
    (h : createContractTry d db = .error e) :
    (e = .notFound "Draft not found" ∧ ∃ did, d.draftId = some did ∧ did ≠ 0 ∧
      db.drafts.find? (fun r => r.id == did) = none) ∨
    (∃ msg, e = .storage msg) := by
  simp only [createContractTry, createExpectedMetrics] at h
  by_cases hA : (!((d.attachments.getD []).all fun a => db.attachments.contains a)) = true
  · rw [if_pos hA] at h
    exact Or.inr ⟨_, (Except.error.inj h).symm⟩
  · rw [if_neg hA] at h
    by_cases hS : (!(d.schools.all fun s => db.schools.contains s)) = true
    · rw [if_pos hS] at h
      exact Or.inr ⟨_, (Except.error.inj h).symm⟩
    · rw [if_neg hS] at h
      by_cases hM : (d.expectedMetrics.all fun m => db.metrics.contains m.1) = true
      · rw [if_pos hM] at h
        dsimp only at h
        cases hD : d.draftId with
        | none =>
          rw [hD] at h
          dsimp only at h
          exact Except.noConfusion h
        | some did =>
          rw [hD] at h
          dsimp only at h
          by_cases h0 : (did == 0) = true
          · rw [if_pos h0] at h
            exact Except.noConfusion h
          · rw [if_neg h0] at h
            cases hF : db.drafts.find? (fun r => r.id == did) with
            | none =>
              rw [hF] at h
              exact Or.inl ⟨(Except.error.inj h).symm, did, rfl, by simpa using h0, hF⟩
            | some draft =>
              rw [hF] at h
              exact Except.noConfusion h
      · rw [if_neg hM] at h
        dsimp only at h
        exact Or.inr ⟨_, (Except.error.inj h).symm⟩

/-- C1. The failure policy of `createContract`, both directions. First:
whenever the call surfaces an error, the transaction has been rolled back
(the state is returned unchanged, so zero new Contract, ExpectedMetric or
association rows persist) and the surfaced error is either the
`Draft not found` `NotFound` or the uniform `DependencyFailure`; the
`NotFound` case arises only from a payload whose truthy draft id has no
matching draft row, so every other failure (for example an invalid school,
metric or attachment reference) surfaces as `DependencyFailure`. Second:
when the payload carries a truthy draft id with no matching draft row and
the preceding steps do not fail first (valid attachment, school and metric
references), the call surfaces exactly the unmodified
`NotFound "Draft not found"` with the state unchanged — the 404 is
re-thrown as-is, not wrapped. -/
theorem createContract_error_policy (d : ContractCreation) (db : DB) :
    (∀ e : Err, (createContract d db).1 = .error e →
      (createContract d db).2 = db ∧
      (e = .notFound "Draft not found" ∨
       e = .dependencyFailure "Some dependency failed while creating contract") ∧
      (e = .notFound "Draft not found" →
        ∃ did, d.draftId = some did ∧ did ≠ 0 ∧
          db.drafts.find? (fun r => r.id == did) = none)) ∧
    (∀ did, d.draftId = some did → did ≠ 0 →
      db.drafts.find? (fun r => r.id == did) = none →
      (d.attachments.getD []).all (fun a => db.attachments.contains a) = true →
      d.schools.all (fun s => db.schools.contains s) = true →
      d.expectedMetrics.all (fun m => db.metrics.contains m.1) = true →
      createContract d db = (.error (.notFound "Draft not found"), db)) := by
  constructor
  · intro e h
    unfold createContract at h ⊢
    cases htry : createContractTry d db with
    | ok p =>
      rw [htry] at h
      exact Except.noConfusion h
    | error e2 =>
      rw [htry] at h
      rcases createContractTry_error_cases d db e2 htry with
        ⟨he2, did, hdid, hne, hfind⟩ | ⟨msg, he2⟩
      · subst he2
        have he2 : Except.error (Err.notFound "Draft not found") = Except.error e := h
        have he : e = Err.notFound "Draft not found" := (Except.error.inj he2).symm
        subst he
        exact ⟨rfl, Or.inl rfl, fun _ => ⟨did, hdid, hne, hfind⟩⟩
      · subst he2
        have he2 :
            Except.error
                (Err.dependencyFailure "Some dependency failed while creating contract") =
              Except.error e := h
        have he : e = Err.dependencyFailure "Some dependency failed while creating contract" :=
          (Except.error.inj he2).symm
        subst he
        exact ⟨rfl, Or.inr rfl, fun hc => Err.noConfusion hc⟩
  · intro did hdid h0 hfind hatt hsch hmet
    have htry : createContractTry d db = .error (.notFound "Draft not found") := by
      simp only [createContractTry, createExpectedMetrics]
      rw [if_neg (by rw [hatt]; decide), if_neg (by rw [hsch]; decide), if_pos hmet]
      dsimp only
      rw [hdid]
      dsimp only
      rw [if_neg (by simpa using h0)]
      rw [hfind]
    unfold createContract
    rw [htry]
    rfl

/-- Concrete instantiation of the error policy, both directions: a payload
referencing the nonexistent school 1123 against `dbSeed` fails leaving the
state unchanged, and a payload referencing the nonexistent draft 100001
(with all other references valid) surfaces exactly the unmodified
`NotFound "Draft not found"` with the state unchanged. -/
theorem createContract_error_policy_witness :
    (createContract { createPayload with schools := [1123] } dbSeed).2 = dbSeed ∧
    createContract { createPayload with draftId := some 100001 } dbSeed =
      (.error (.notFound "Draft not found"), dbSeed) := by
  constructor
  · exact ((createContract_error_policy { createPayload with schools := [1123] } dbSeed).1
      (.dependencyFailure "Some dependency failed while creating contract") (by decide)).1
  · exact (createContract_error_policy { createPayload with draftId := some 100001 } dbSeed).2
      100001 rfl (by decide) (by decide) (by decide) (by decide) (by decide)

/-- Helper: every successful exit of the `createContract` transaction body
returns the freshly inserted row, whose status is `Sent`, and a state whose
contract table is the old one extended by exactly that row. -/
theorem createContractTry_ok_shape (d : ContractCreation) (db : DB) (c : ContractRow)
    (db2 : DB) (h : createContractTry d db = .ok (c, db2)) :
    c.status = ContractStatus.Sent ∧ db2.contracts = db.contracts ++ [c] := by
  simp only [createContractTry, createExpectedMetrics] at h
  by_cases hA : (!((d.attachments.getD []).all fun a => db.attachments.contains a)) = true
  · rw [if_pos hA] at h
    exact Except.noConfusion h
  · rw [if_neg hA] at h
    by_cases hS : (!(d.schools.all fun s => db.schools.contains s)) = true
    · rw [if_pos hS] at h
      exact Except.noConfusion h
    · rw [if_neg hS] at h
      by_cases hM : (d.expectedMetrics.all fun m => db.metrics.contains m.1) = true
      · rw [if_pos hM] at h
        dsimp only at h
        cases hD : d.draftId with
        | none =>
          rw [hD] at h
          dsimp only at h
          have hp := Except.ok.inj h
          have hc := congrArg Prod.fst hp
          have hdb := congrArg Prod.snd hp
          subst hc
          subst hdb
          exact ⟨rfl, rfl⟩
        | some did =>
          rw [hD] at h
          dsimp only at h
          by_cases h0 : (did == 0) = true
          · rw [if_pos h0] at h
            have hp := Except.ok.inj h
            have hc := congrArg Prod.fst hp
            have hdb := congrArg Prod.snd hp
            subst hc
            subst hdb
            exact ⟨rfl, rfl⟩
          · rw [if_neg h0] at h
            cases hF : db.drafts.find? (fun r => r.id == did) with
            | none =>
              rw [hF] at h
              exact Except.noConfusion h
            | some draft =>
              rw [hF] at h
              have hp := Except.ok.inj h
              have hc := congrArg Prod.fst hp
              have hdb := congrArg Prod.snd hp
              subst hc
              subst hdb
              exact ⟨rfl, rfl⟩
      · rw [if_neg hM] at h
        dsimp only at h
        exact Except.noConfusion h

/-- C3. Every successful `createContract` call returns the row it inserted,
the contract table is extended by exactly that row, and its status is
`Sent` regardless of any status value the payload might carry; in
particular creation via this path never yields a contract in `Draft`
status. -/
theorem createContract_status_forced (d : ContractCreation) (db : DB) (c : ContractRow)
    (db2 : DB) (h : createContract d db = (.ok c, db2)) :
    c.status = ContractStatus.Sent ∧ db2.contracts = db.contracts ++ [c] ∧
    c.status ≠ ContractStatus.Draft := by
  unfold createContract at h
  cases htry : createContractTry d db with
  | ok p =>
    rw [htry] at h
    obtain ⟨cp, dbp⟩ := p
    have h1 : Except.ok (ε := Err) cp = Except.ok c := congrArg Prod.fst h
    have h2 : dbp = db2 := congrArg Prod.snd h
    have hc : cp = c := Except.ok.inj h1
    subst hc
    subst h2
    obtain ⟨hs, hcon⟩ := createContractTry_ok_shape d db cp dbp htry
    refine ⟨hs, hcon, ?_⟩
    rw [hs]
    decide
  | error e2 =>
    rw [htry] at h
    dsimp only at h
    by_cases hst : (errStatus e2 == some 404) = true
    · rw [if_pos hst] at h
      exact Except.noConfusion (congrArg Prod.fst h)
    · rw [if_neg hst] at h
      exact Except.noConfusion (congrArg Prod.fst h)

/-- The contract row inserted by `createContract createPayload dbSeed` with
the draft promotion disabled. -/
def sentContract : ContractRow :=
  { id := 5, name := "Contract 1", countryId := 1, governmentBehalf := false,
    ltaId := 2, currencyId := 1, budget := "1000", frequencyId := 1, startDate := 0,
    endDate := 0, ispId := 1, createdBy := 7, status := 1 }

/-- The state after `createContract { createPayload with draftId := none }
dbSeed`. -/
def dbAfterCreate : DB :=
  { contracts := [sentContract], drafts := [{ id := 42, createdAt := 777 }],
    schools := [10], attachments := [], metrics := [3, 4], contractSchools := [(5, 10)],
    contractAttachments := [], expectedMetrics := [(5, 3, 1), (5, 4, 1)],
    statusTransitions := [], nextContractId := 6 }

/-- Concrete instantiation of the forced-status theorem: even though the
payload carries `status := some 0` (`Draft`), the persisted contract has
status `Sent`. -/
theorem createContract_status_forced_witness :
    sentContract.status = ContractStatus.Sent ∧
    sentContract.status ≠ ContractStatus.Draft := by
  have h := createContract_status_forced { createPayload with draftId := none } dbSeed
    sentContract dbAfterCreate (by decide)
  exact ⟨h.1, h.2.2⟩

/-- C2. A successful `createContract` whose payload carries a truthy draft
id matching an existing draft row consumes that draft exactly once: the
call succeeds, no draft row with that id remains, and (assuming no
pre-existing transition references the fresh contract id, which fresh id
allocation guarantees) exactly one StatusTransition row exists for the new
contract, recording `Draft -> Sent` with actor `createdBy` and a data
payload holding the draft id and the draft original creation timestamp. -/
theorem createContract_draft_consumed (d : ContractCreation) (db : DB) (did : Nat)
    (draft : DraftRow)
    (hdid : d.draftId = some did) (h0 : did ≠ 0)
    (hdraft : db.drafts.find? (fun r => r.id == did) = some draft)
    (hatt : (d.attachments.getD []).all (fun a => db.attachments.contains a) = true)
    (hsch : d.schools.all (fun s => db.schools.contains s) = true)
    (hmet : d.expectedMetrics.all (fun m => db.metrics.contains m.1) = true)
    (hfresh : ∀ t ∈ db.statusTransitions, t.contractId ≠ db.nextContractId) :
    ∃ c db2, createContract d db = (.ok c, db2) ∧
      db2.drafts.find? (fun r => r.id == did) = none ∧
      db2.statusTransitions.filter (fun t => t.contractId == c.id) =
        [{ who := d.createdBy, contractId := c.id, initialStatus := ContractStatus.Draft,
           finalStatus := ContractStatus.Sent,
           data := some { draftId := draft.id, draftCreation := draft.createdAt } }] := by
  have htry : createContractTry d db =
      .ok ({ id := db.nextContractId, name := d.name, countryId := d.countryId,
             governmentBehalf := d.governmentBehalf, ltaId := d.ltaId,
             currencyId := d.currencyId, budget := d.budget, frequencyId := d.frequencyId,
             startDate := d.startDate, endDate := d.endDate, ispId := d.ispId,
             createdBy := d.createdBy, status := ContractStatus.Sent },
           { contracts := db.contracts ++
               [{ id := db.nextContractId, name := d.name, countryId := d.countryId,
                  governmentBehalf := d.governmentBehalf, ltaId := d.ltaId,
                  currencyId := d.currencyId, budget := d.budget,
                  frequencyId := d.frequencyId, startDate := d.startDate,
                  endDate := d.endDate, ispId := d.ispId, createdBy := d.createdBy,
                  status := ContractStatus.Sent }],
             drafts := db.drafts.filter (fun r => r.id != did),
             schools := db.schools, attachments := db.attachments, metrics := db.metrics,
             contractSchools := db.contractSchools ++
               d.schools.map (fun s => (db.nextContractId, s)),
             contractAttachments := db.contractAttachments ++
               (d.attachments.getD []).map (fun a => (db.nextContractId, a)),
             expectedMetrics := db.expectedMetrics ++
               d.expectedMetrics.map (fun m => (db.nextContractId, m.1, m.2)),
             statusTransitions := db.statusTransitions ++
               [{ who := d.createdBy, contractId := db.nextContractId,
                  initialStatus := ContractStatus.Draft, finalStatus := ContractStatus.Sent,
                  data := some { draftId := draft.id, draftCreation := draft.createdAt } }],
             nextContractId := db.nextContractId + 1 }) := by
    simp only [createContractTry, createExpectedMetrics]
    rw [if_neg (by rw [hatt]; decide), if_neg (by rw [hsch]; decide), if_pos hmet]
    dsimp only
    rw [hdid]
    dsimp only
    rw [if_neg (by simpa using h0)]
    rw [hdraft]
  obtain ⟨c2, db2, htry2, hid, hdr, hst⟩ :
      ∃ c2 db2, createContractTry d db = .ok (c2, db2) ∧
        c2.id = db.nextContractId ∧
        db2.drafts = db.drafts.filter (fun r => r.id != did) ∧
        db2.statusTransitions = db.statusTransitions ++
          [{ who := d.createdBy, contractId := db.nextContractId,
             initialStatus := ContractStatus.Draft, finalStatus := ContractStatus.Sent,
             data := some { draftId := draft.id, draftCreation := draft.createdAt } }] :=
    ⟨_, _, htry, rfl, rfl, rfl⟩
  refine ⟨c2, db2, ?_, ?_, ?_⟩
  · unfold createContract
    rw [htry2]
  · rw [hdr, List.find?_eq_none]
    intro x hx
    rw [List.mem_filter] at hx
    have hx2 := hx.2
    simp only [bne_iff_ne, ne_eq] at hx2
    simp [hx2]
  · rw [hst, hid, List.filter_append]
    have h1 : db.statusTransitions.filter
        (fun t => t.contractId == db.nextContractId) = [] := by
      rw [List.filter_eq_nil_iff]
      intro t ht
      have := hfresh t ht
      simp [this]
    rw [h1]
    simp

/-- Concrete instantiation of the exactly-once draft consumption: creating
from `createPayload` (draft 42) against `dbSeed` succeeds, deletes draft 42
and records exactly one `Draft -> Sent` transition carrying the draft
creation timestamp 777. -/
theorem createContract_draft_consumed_witness :
    ∃ c db2, createContract createPayload dbSeed = (.ok c, db2) ∧
      db2.drafts.find? (fun r => r.id == 42) = none ∧
      db2.statusTransitions.filter (fun t => t.contractId == c.id) =
        [{ who := createPayload.createdBy, contractId := c.id,
           initialStatus := ContractStatus.Draft, finalStatus := ContractStatus.Sent,
           data := some { draftId := 42, draftCreation := 777 } }] :=
  createContract_draft_consumed createPayload dbSeed 42 { id := 42, createdAt := 777 }
    (by decide) (by decide) (by decide) (by decide) (by decide) (by decide)
    (by intro t ht; cases ht)

/-- The school average for a given metric, as the spec words it: the value
of the first measure row matching the metric id, if any. -/
def measuredAvg (ms : List SchoolMeasure) (metricId : Nat) : Option Int :=
  (ms.find? (fun sm => sm.metricId == metricId)).map (fun sm => sm.avg)

/-- Spec-side failure condition for one expected metric: the school has no
average for that metric, or the average is strictly below the expected
target. -/
def metricFails (ms : List SchoolMeasure) (em : ExpectedMetricRow) : Prop :=
  measuredAvg ms em.metricId = none ∨
  ∃ a, measuredAvg ms em.metricId = some a ∧ a < em.value

/-- Helper: the classifier loop returns `atLeastOneBellowAvg` exactly when
some expected metric fails for the school. -/
theorem evalLoop_eq_bellow_iff (ms : List SchoolMeasure) (ems : List ExpectedMetricRow) :
    evalLoop ms ems = .atLeastOneBellowAvg ↔ ∃ em ∈ ems, metricFails ms em := by
  induction ems with
  | nil => simp [evalLoop]
  | cons em rest ih =>
    simp only [evalLoop]
    cases hF : ms.find? (fun sm => sm.metricId == em.metricId) with
    | none =>
      simp only [hF]
      constructor
      · intro _
        exact ⟨em, List.mem_cons_self em rest, Or.inl (by simp [measuredAvg, hF])⟩
      · intro _
        trivial
    | some sm =>
      by_cases hlt : sm.avg < em.value
      · simp only [hF, if_pos hlt]
        constructor
        · intro _
          exact ⟨em, List.mem_cons_self em rest,
            Or.inr ⟨sm.avg, by simp [measuredAvg, hF], hlt⟩⟩
        · intro _
          trivial
      · simp only [hF, if_neg hlt]
        rw [ih]
        constructor
        · rintro ⟨x, hx, hfx⟩
          exact ⟨x, List.mem_cons_of_mem _ hx, hfx⟩
        · rintro ⟨x, hx, hfx⟩
          rcases List.mem_cons.mp hx with rfl | hx2
          · exfalso
            rcases hfx with hnone | ⟨a, hsome, hlt2⟩
            · rw [measuredAvg, hF] at hnone
              cases hnone
            · rw [measuredAvg, hF] at hsome
              have ha : sm.avg = a := Option.some.inj (by simpa using hsome)
              exact hlt (ha ▸ hlt2)
          · exact ⟨x, hx2, hfx⟩

/-- Helper: the classifier loop returns `allEqualOrAboveAvg` exactly when
no expected metric fails for the school. -/
theorem evalLoop_eq_allAbove_iff (ms : List SchoolMeasure) (ems : List ExpectedMetricRow) :
    evalLoop ms ems = .allEqualOrAboveAvg ↔ ∀ em ∈ ems, ¬ metricFails ms em := by
  induction ems with
  | nil => simp [evalLoop]
  | cons em rest ih =>
    simp only [evalLoop]
    cases hF : ms.find? (fun sm => sm.metricId == em.metricId) with
    | none =>
      simp only [hF]
      constructor
      · intro h
        cases h
      · intro h
        exfalso
        exact h em (List.mem_cons_self em rest) (Or.inl (by simp [measuredAvg, hF]))
    | some sm =>
      by_cases hlt : sm.avg < em.value
      · simp only [hF, if_pos hlt]
        constructor
        · intro h
          cases h
        · intro h
          exfalso
          exact h em (List.mem_cons_self em rest)
            (Or.inr ⟨sm.avg, by simp [measuredAvg, hF], hlt⟩)
      · simp only [hF, if_neg hlt]
        rw [ih]
        constructor
        · intro h x hx
          rcases List.mem_cons.mp hx with rfl | hx2
          · rintro (hnone | ⟨a, hsome, hlt2⟩)
            · rw [measuredAvg, hF] at hnone
              cases hnone
            · rw [measuredAvg, hF] at hsome
              have ha : sm.avg = a := Option.some.inj (by simpa using hsome)
              exact hlt (ha ▸ hlt2)
          · exact h x hx2
        · intro h x hx
          exact h x (List.mem_cons_of_mem _ hx)

/-- C7. The classifier returns `withoutConnection` exactly on an empty
measures array; for a school with at least one measure it returns
`atLeastOneBellowAvg` precisely when some expected metric (scanned in
order, first failure winning) has no measured average or an average
strictly below its target, and `allEqualOrAboveAvg` precisely when no
expected metric fails; in particular zero expected metrics with at least
one measurement always yields `allEqualOrAboveAvg`. -/
theorem evaluateMeasures_classification (ms : List SchoolMeasure)
    (ems : List ExpectedMetricRow) :
    (ms = [] → evaluateMeasures ms ems = .withoutConnection) ∧
    (ms ≠ [] →
      (evaluateMeasures ms ems = .atLeastOneBellowAvg ↔ ∃ em ∈ ems, metricFails ms em)) ∧
    (ms ≠ [] →
      (evaluateMeasures ms ems = .allEqualOrAboveAvg ↔ ∀ em ∈ ems, ¬ metricFails ms em)) ∧
    (ms ≠ [] → ems = [] → evaluateMeasures ms ems = .allEqualOrAboveAvg) := by
  refine ⟨?_, ?_, ?_, ?_⟩
  · intro h
    subst h
    rfl
  · intro h
    rw [evaluateMeasures, if_neg (by simpa [List.length_eq_zero] using h)]
    exact evalLoop_eq_bellow_iff ms ems
  · intro h
    rw [evaluateMeasures, if_neg (by simpa [List.length_eq_zero] using h)]
    exact evalLoop_eq_allAbove_iff ms ems
  · intro h hems
    subst hems
    rw [evaluateMeasures, if_neg (by simpa [List.length_eq_zero] using h)]
    rfl

/-- Concrete instantiation of the classifier characterization on the spec
test vectors: expected metrics [(1, 10), (2, 5)] with averages only for
metric 1 classify as `atLeastOneBellowAvg` (the missing average for metric
2 counts as failing), and zero expected metrics with one measurement
classify as `allEqualOrAboveAvg`. -/
theorem evaluateMeasures_classification_witness :
    evaluateMeasures [{ metricId := 1, avg := 12 }]
      [{ metricId := 1, value := 10 }, { metricId := 2, value := 5 }] =
        .atLeastOneBellowAvg ∧
    evaluateMeasures [{ metricId := 1, avg := 1 }] [] = .allEqualOrAboveAvg := by
  constructor
  · exact ((evaluateMeasures_classification [{ metricId := 1, avg := 12 }]
      [{ metricId := 1, value := 10 }, { metricId := 2, value := 5 }]).2.1
        (by decide)).mpr
      ⟨{ metricId := 2, value := 5 }, by decide, Or.inl (by decide)⟩
  · exact (evaluateMeasures_classification [{ metricId := 1, avg := 1 }] []).2.2.2
      (by decide) rfl

/-- Spec-side contract visibility, written as the claim words it: the
top-level administrative role is unrestricted, otherwise the effective
predicate is the conjunction of the country restriction, the
government-behalf restriction when the government role is held, and the
ISP-name restriction when the isp role is held. -/
def contractScopeSpec (u : UserQ) (c : ContractScopeRow) : Prop :=
  checkUserRole u [gigaAdminRole] = true ∨
  (c.countryId = u.countryId ∧
   (checkUserRole u [governmentRole] = true → c.governmentBehalf = true) ∧
   (checkUserRole u [ispRole] = true → c.ispName = u.name))

/-- Spec-side draft visibility: same restrictions as for contracts. -/
def draftScopeSpec (u : UserQ) (d : DraftScopeRow) : Prop :=
  checkUserRole u [gigaAdminRole] = true ∨
  (d.countryId = u.countryId ∧
   (checkUserRole u [governmentRole] = true → d.governmentBehalf = true) ∧
   (checkUserRole u [ispRole] = true → d.ispName = u.name))

/-- Spec-side LTA visibility: unrestricted for the administrative role,
otherwise the country restriction plus, for the isp role, that the linked
ISP set contains an ISP with the user name; the government role adds no
LTA restriction. -/
def ltaScopeSpec (u : UserQ) (l : LtaScopeRow) : Prop :=
  checkUserRole u [gigaAdminRole] = true ∨
  (l.countryId = u.countryId ∧
   (checkUserRole u [ispRole] = true → l.ispNames.contains u.name = true))

/-- C8. The filter predicates accumulated by `queryBuilder` coincide with
the spec-side scope: unrestricted for the administrative role, otherwise
the conjunction of all applicable restrictions for contracts, drafts and
LTAs. -/
theorem queryBuilder_scope_conjunction (u : UserQ) (c : ContractScopeRow)
    (d : DraftScopeRow) (l : LtaScopeRow) :
    (contractScope u c = true ↔ contractScopeSpec u c) ∧
    (draftScope u d = true ↔ draftScopeSpec u d) ∧
    (ltaScope u l = true ↔ ltaScopeSpec u l) := by
  refine ⟨?_, ?_, ?_⟩
  · unfold contractScope contractScopeSpec
    cases hAdm : checkUserRole u [gigaAdminRole] with
    | true => simp
    | false =>
      cases hGov : checkUserRole u [governmentRole] with
      | true =>
        cases hIsp : checkUserRole u [ispRole] with
        | true => simp [and_assoc]
        | false => simp [and_assoc]
      | false =>
        cases hIsp : checkUserRole u [ispRole] with
        | true => simp [and_assoc]
        | false => simp [and_assoc]
  · unfold draftScope draftScopeSpec
    cases hAdm : checkUserRole u [gigaAdminRole] with
    | true => simp
    | false =>
      cases hGov : checkUserRole u [governmentRole] with
      | true =>
        cases hIsp : checkUserRole u [ispRole] with
        | true => simp [and_assoc]
        | false => simp [and_assoc]
      | false =>
        cases hIsp : checkUserRole u [ispRole] with
        | true => simp [and_assoc]
        | false => simp [and_assoc]
  · unfold ltaScope ltaScopeSpec
    cases hAdm : checkUserRole u [gigaAdminRole] with
    | true => simp
    | false =>
      cases hIsp : checkUserRole u [ispRole] with
      | true => simp [and_assoc]
      | false => simp [and_assoc]

/-- Whether an entry with the given preloaded LTA id and name is routed to
the bucket named `n`: truthy LTA id and matching name. -/
def assignedToB (n : String) (ltaId : Option Nat) (ltaName : String) : Bool :=
  optTruthy ltaId && (ltaName == n)

/-- Reading back the key just written returns the written value. -/
theorem getKey_setKey_self {A : Type} (m : List (String × A)) (k : String) (v : A) :
    getKey (setKey m k v) k = some v := by
  induction m with
  | nil => simp [setKey, getKey]
  | cons p rest ih =>
    obtain ⟨k2, w⟩ := p
    by_cases h : (k2 == k) = true
    · simp [setKey, h, getKey]
    · simp [setKey, h, getKey, ih]

/-- Writing one key leaves every other key unchanged. -/
theorem getKey_setKey_other {A : Type} (m : List (String × A)) (k k2 : String) (v : A)
    (h : k2 ≠ k) : getKey (setKey m k v) k2 = getKey m k2 := by
  have hkk : ¬(k == k2) = true := by
    intro hk
    exact h ((by simpa using hk : k = k2)).symm
  induction m with
  | nil => simp [setKey, getKey, hkk]
  | cons p rest ih =>
    obtain ⟨k3, w⟩ := p
    by_cases h3 : (k3 == k) = true
    · have hk : k3 = k := by simpa using h3
      subst hk
      simp [setKey, getKey, h3, hkk]
    · simp only [setKey, h3, if_false, Bool.false_eq_true]
      by_cases h4 : (k3 == k2) = true
      · simp [getKey, h4]
      · simp [getKey, h4, ih]

/-- The flat list after one placement: unchanged for a truthy LTA id,
extended by the entry otherwise. -/
theorem placeEntry_snd (acc : List (String × List ContractListEntry) × List ContractListEntry)
    (lid : Option Nat) (lname : String) (e : ContractListEntry) :
    (placeEntry acc lid lname e).2 = if optTruthy lid then acc.2 else acc.2 ++ [e] := by
  unfold placeEntry
  cases h : optTruthy lid
  · simp [h]
  · simp only [h, if_true]
    cases hg : getKey acc.1 lname <;> simp

/-- The buckets after one placement: the bucket named `n` is extended by
the entry when the entry is assigned to `n` and that bucket exists, and is
unchanged in every other case (in particular the entry is dropped when its
bucket does not exist). -/
theorem placeEntry_getKey (acc : List (String × List ContractListEntry) × List ContractListEntry)
    (lid : Option Nat) (lname n : String) (e : ContractListEntry) :
    getKey (placeEntry acc lid lname e).1 n =
      if assignedToB n lid lname then (getKey acc.1 n).map (fun lst => lst ++ [e])
      else getKey acc.1 n := by
  unfold placeEntry assignedToB
  cases h : optTruthy lid
  · simp [h]
  · simp only [h, if_true, Bool.true_and]
    by_cases hn : (lname == n) = true
    · have hn2 : lname = n := by simpa using hn
      subst hn2
      cases hg : getKey acc.1 lname with
      | none => simp [hg, hn]
      | some lst => simp [hg, hn, getKey_setKey_self]
    · have hn2 : ¬(lname = n) := by simpa using hn
      cases hg : getKey acc.1 lname with
      | none => simp [hg, hn]
      | some lst =>
        simp only [hg, hn, if_false, Bool.false_eq_true]
        exact getKey_setKey_other acc.1 lname n (lst ++ [e]) (fun hh => hn2 hh.symm)

/-- The drafts pass appends to the flat list exactly the entries of the
drafts with a falsy LTA id, in order. -/
theorem draftsPass_snd (ds : List DraftFull)
    (acc : List (String × List ContractListEntry) × List ContractListEntry) :
    (draftsPass acc ds).2 =
      acc.2 ++ (ds.filter (fun d => !optTruthy d.ltaId)).map draftEntry := by
  induction ds generalizing acc with
  | nil => simp [draftsPass]
  | cons d rest ih =>
    have step : draftsPass acc (d :: rest) =
        draftsPass (placeEntry acc d.ltaId d.ltaName (draftEntry d)) rest := rfl
    rw [step, ih, placeEntry_snd]
    by_cases h : optTruthy d.ltaId = true
    · simp [List.filter_cons, h]
    · rw [Bool.not_eq_true] at h
      simp [List.filter_cons, h]

/-- The drafts pass extends each existing bucket by exactly the entries of
the drafts assigned to that bucket name, in order, and creates or removes
no bucket. -/
theorem draftsPass_getKey (ds : List DraftFull)
    (acc : List (String × List ContractListEntry) × List ContractListEntry) (n : String) :
    getKey (draftsPass acc ds).1 n =
      (getKey acc.1 n).map (fun lst =>
        lst ++ (ds.filter (fun d => assignedToB n d.ltaId d.ltaName)).map draftEntry) := by
  induction ds generalizing acc with
  | nil => cases hg : getKey acc.1 n <;> simp [draftsPass, hg]
  | cons d rest ih =>
    have step : draftsPass acc (d :: rest) =
        draftsPass (placeEntry acc d.ltaId d.ltaName (draftEntry d)) rest := rfl
    rw [step, ih, placeEntry_getKey]
    by_cases h : assignedToB n d.ltaId d.ltaName = true
    · rw [if_pos h]
      cases hg : getKey acc.1 n with
      | none => simp [List.filter_cons, h]
      | some lst => simp [List.filter_cons, h, List.append_assoc]
    · rw [if_neg h]
      rw [Bool.not_eq_true] at h
      simp [List.filter_cons, h]

/-- A successful contract entry always carries the id of its contract. -/
theorem contractEntry_id (ms : MVal) (c : ContractFull) (e : ContractListEntry)
    (h : contractEntry ms c = .ok e) : e.id = c.id := by
  unfold contractEntry at h
  cases hc : schoolsConnCounts ms c with
  | error e2 =>
    rw [hc] at h
    exact Except.noConfusion h
  | ok counts =>
    rw [hc] at h
    have h2 := Except.ok.inj h
    subst h2
    rfl

/-- A successful contracts pass appends to the flat list exactly the ids of
the contracts with a falsy LTA id, in order. -/
theorem contractsPass_ok_snd (ms : MVal) (cs : List ContractFull)
    (acc : List (String × List ContractListEntry) × List ContractListEntry)
    (res : List (String × List ContractListEntry) × List ContractListEntry)
    (h : contractsPass ms acc cs = .ok res) :
    res.2.map (fun e => e.id) =
      acc.2.map (fun e => e.id) ++
        (cs.filter (fun c => !optTruthy c.ltaId)).map (fun c => c.id) := by
  induction cs generalizing acc with
  | nil =>
    have h2 : acc = res := Except.ok.inj h
    subst h2
    simp
  | cons c rest ih =>
    have step : contractsPass ms acc (c :: rest) =
        (match contractEntry ms c with
         | .error e => .error e
         | .ok e => contractsPass ms (placeEntry acc c.ltaId c.ltaName e) rest) := rfl
    rw [step] at h
    cases hce : contractEntry ms c with
    | error e2 =>
      rw [hce] at h
      exact Except.noConfusion h
    | ok e =>
      rw [hce] at h
      rw [ih (placeEntry acc c.ltaId c.ltaName e) h, placeEntry_snd]
      have hid : e.id = c.id := contractEntry_id ms c e hce
      by_cases ht : optTruthy c.ltaId = true
      · simp [List.filter_cons, ht]
      · rw [Bool.not_eq_true] at ht
        simp [List.filter_cons, ht, hid, List.append_assoc]

/-- A successful contracts pass extends each existing bucket by exactly the
ids of the contracts assigned to that bucket name, in order, and creates or
removes no bucket. -/
theorem contractsPass_ok_getKey (ms : MVal) (cs : List ContractFull)
    (acc : List (String × List ContractListEntry) × List ContractListEntry)
    (res : List (String × List ContractListEntry) × List ContractListEntry) (n : String)
    (h : contractsPass ms acc cs = .ok res) :
    (getKey res.1 n).map (fun lst => lst.map (fun e => e.id)) =
      (getKey acc.1 n).map (fun lst => lst.map (fun e => e.id) ++
        (cs.filter (fun c => assignedToB n c.ltaId c.ltaName)).map (fun c => c.id)) := by
  induction cs generalizing acc with
  | nil =>
    have h2 : acc = res := Except.ok.inj h
    subst h2
    cases hg : getKey acc.1 n <;> simp [hg]
  | cons c rest ih =>
    have step : contractsPass ms acc (c :: rest) =
        (match contractEntry ms c with
         | .error e => .error e
         | .ok e => contractsPass ms (placeEntry acc c.ltaId c.ltaName e) rest) := rfl
    rw [step] at h
    cases hce : contractEntry ms c with
    | error e2 =>
      rw [hce] at h
      exact Except.noConfusion h
    | ok e =>
      rw [hce] at h
      rw [ih (placeEntry acc c.ltaId c.ltaName e) h, placeEntry_getKey]
      have hid : e.id = c.id := contractEntry_id ms c e hce
      by_cases ht : assignedToB n c.ltaId c.ltaName = true
      · rw [if_pos ht]
        cases hg : getKey acc.1 n with
        | none => simp [List.filter_cons, ht]
        | some lst => simp [List.filter_cons, ht, hid, List.append_assoc]
      · rw [if_neg ht]
        rw [Bool.not_eq_true] at ht
        simp [List.filter_cons, ht]

/-- Helper: folding the LTA rows over `setKey` seeds exactly one empty
bucket per LTA name, leaving other keys of the accumulator unchanged. -/
theorem formatLtaList_fold_getKey (ltas : List LtaData)
    (acc : List (String × List ContractListEntry)) (n : String) :
    getKey (ltas.foldl (fun agg cur => setKey agg cur.name []) acc) n =
      if n ∈ ltas.map (fun l => l.name) then some [] else getKey acc n := by
  induction ltas generalizing acc with
  | nil => simp
  | cons l rest ih =>
    rw [List.foldl_cons, ih]
    by_cases hmem : n ∈ rest.map (fun l2 => l2.name)
    · simp [hmem]
    · by_cases heq : l.name = n
      · subst heq
        simp [hmem, getKey_setKey_self]
      · have hother : getKey (setKey acc l.name []) n = getKey acc n :=
          getKey_setKey_other acc l.name n [] (fun hh => heq hh.symm)
        simp [hmem, heq, hother, Ne.symm heq]

/-- The pre-seeded bucket map has key `n` (holding an empty bucket) exactly
when `n` is the name of some visible LTA. -/
theorem formatLtaList_getKey (ltas : List LtaData) (n : String) :
    getKey (formatLtaList ltas) n =
      if n ∈ ltas.map (fun l => l.name) then some [] else none := by
  have h := formatLtaList_fold_getKey ltas [] n
  simpa [formatLtaList, getKey] using h

/-- Option map preserves definedness. -/
theorem optMap_isSome {A B : Type} (f : A → B) (o : Option A) :
    (o.map f).isSome = o.isSome := by
  cases o <;> rfl

/-- C9 (amended). For every successfully built list view: one bucket is
pre-seeded per visible LTA name and no other bucket exists; the flat list
holds, in order, exactly the ids of the visible drafts and contracts with a
falsy LTA id; and every existing bucket holds, in order, exactly the ids of
the visible drafts and contracts assigned to an LTA with that name. An
entry assigned to an LTA whose name has no bucket therefore appears
nowhere. -/
theorem contractListDTO_grouping (data : List ContractFull) (drafts : List DraftFull)
    (ltasData : List LtaData) (ms : MVal) (res : ContractListResult)
    (h : contractListDTO data drafts ltasData ms = .ok res) :
    (∀ lta ∈ ltasData, (getKey res.ltas lta.name).isSome = true) ∧
    (∀ n, (getKey res.ltas n).isSome = true → n ∈ ltasData.map (fun l => l.name)) ∧
    (res.contracts.map (fun e => e.id) =
      (drafts.filter (fun d => !optTruthy d.ltaId)).map (fun d => d.id) ++
      (data.filter (fun c => !optTruthy c.ltaId)).map (fun c => c.id)) ∧
    (∀ n b, getKey res.ltas n = some b →
      b.map (fun e => e.id) =
        (drafts.filter (fun d => assignedToB n d.ltaId d.ltaName)).map (fun d => d.id) ++
        (data.filter (fun c => assignedToB n c.ltaId c.ltaName)).map (fun c => c.id)) := by
  simp only [contractListDTO] at h
  cases hcp : contractsPass ms (draftsPass (formatLtaList ltasData, []) drafts) data with
  | error e =>
    rw [hcp] at h
    exact Except.noConfusion h
  | ok acc2 =>
    rw [hcp] at h
    have hres : ContractListResult.mk acc2.1 acc2.2 = res := Except.ok.inj h
    have hl : res.ltas = acc2.1 := by rw [← hres]
    have hc : res.contracts = acc2.2 := by rw [← hres]
    have hbase := fun n => formatLtaList_getKey ltasData n
    have hacc1 := fun n => draftsPass_getKey drafts (formatLtaList ltasData, []) n
    have hacc2 := fun n => contractsPass_ok_getKey ms data
      (draftsPass (formatLtaList ltasData, []) drafts) acc2 n hcp
    have hchain : ∀ n, (getKey acc2.1 n).isSome =
        (getKey (formatLtaList ltasData) n).isSome := by
      intro n
      have e1 := congrArg Option.isSome (hacc2 n)
      rw [optMap_isSome, optMap_isSome] at e1
      have e2 := congrArg Option.isSome (hacc1 n)
      rw [optMap_isSome] at e2
      exact e1.trans e2
    refine ⟨?_, ?_, ?_, ?_⟩
    · intro lta hmem
      rw [hl, hchain lta.name, hbase lta.name,
        if_pos (List.mem_map_of_mem (fun l => l.name) hmem)]
      rfl
    · intro n hsome
      rw [hl, hchain n, hbase n] at hsome
      by_cases hmem : n ∈ ltasData.map (fun l => l.name)
      · exact hmem
      · rw [if_neg hmem] at hsome
        cases hsome
    · rw [hc,
        contractsPass_ok_snd ms data (draftsPass (formatLtaList ltasData, []) drafts) acc2 hcp,
        draftsPass_snd drafts (formatLtaList ltasData, [])]
      simp [List.map_map, Function.comp, draftEntry]
    · intro n b hget
      rw [hl] at hget
      have h1 := hacc2 n
      rw [hget] at h1
      have hsome : (getKey (formatLtaList ltasData) n).isSome = true := by
        rw [← hchain n, hget]
        rfl
      have hbn : getKey (formatLtaList ltasData) n = some [] := by
        rw [hbase n] at hsome ⊢
        by_cases hmem : n ∈ ltasData.map (fun l => l.name)
        · rw [if_pos hmem]
        · rw [if_neg hmem] at hsome
          cases hsome
      rw [hacc1 n, hbn] at h1
      simp [List.map_map, Function.comp, draftEntry] at h1
      simpa [List.map_map, Function.comp, draftEntry] using h1

/-- A visible draft assigned to an LTA (id 7, preloaded name `LTA X`) used
as the counterexample input for the grouping claim. -/
def draftAssignedNoBucket : DraftFull :=
  { id := 1, name := "Draft A", ispName := none, countryName := none,
    numSchools := none, ltaId := some 7, ltaName := "LTA X" }

/-- C9 counterexample. With no visible LTA rows, a visible draft that IS
assigned to an LTA is silently dropped: the builder returns empty buckets
and an empty flat list, so the entry appears neither under an LTA bucket
nor in the flat list, refuting the claim that every visible entry assigned
to an LTA appears under that LTA name-keyed bucket. -/
theorem contractListDTO_drops_entry_without_bucket :
    contractListDTO [] [draftAssignedNoBucket] [] (MVal.obj []) =
      .ok { ltas := [], contracts := [] } ∧
    optTruthy draftAssignedNoBucket.ltaId = true := by
  exact ⟨by decide, by decide⟩

/-- A visible LTA named `X` for the grouping witness. -/
def ltaX : LtaData := { id := 5, name := "X" }

/-- A visible draft assigned to the LTA named `X`. -/
def draftAssignedX : DraftFull :=
  { id := 1, name := "Draft A", ispName := none, countryName := none,
    numSchools := none, ltaId := some 7, ltaName := "X" }

/-- A visible contract not assigned to any LTA and without schools. -/
def contractFlat : ContractFull :=
  { id := 3, name := "Contract 3", ispName := "ISP X", status := 1, countryName := "BR",
    schools := [], expectedMetrics := [], budget := 0, totalPayments := 0,
    ltaId := none, ltaName := "" }

/-- The list view built from `contractFlat`, `draftAssignedX` and `ltaX`. -/
def listViewX : ContractListResult :=
  { ltas := [("X", [draftEntry draftAssignedX])],
    contracts := [{ id := 3, name := "Contract 3", isp := some "ISP X", status := "Sent",
                    countryName := some "BR", schoolsConnection := some (0, 0, 0),
                    numberOfSchools := some 0, totalSpent := some 0, ltaId := none }] }

/-- Concrete instantiation of the amended grouping theorem: the unassigned
contract (id 3) is the only flat entry and the bucket for the visible LTA
`X` exists. -/
theorem contractListDTO_grouping_witness :
    listViewX.contracts.map (fun e => e.id) = [3] ∧
    (getKey listViewX.ltas "X").isSome = true := by
  have h := contractListDTO_grouping [contractFlat] [draftAssignedX] [ltaX] (MVal.obj [])
    listViewX (by decide)
  exact ⟨(h.2.2.1).trans (by decide), h.1 ltaX (by decide)⟩

/-- The contract of the measures-key-mismatch failing input: named
`Contract 1` with one linked school named `School A`. -/
def contractWithSchool : ContractFull :=
  { id := 1, name := "Contract 1", ispName := "ISP X", status := 1, countryName := "BR",
    schools := [{ id := 10, name := "School A" }], expectedMetrics := [], budget := 0,
    totalPayments := 0, ltaId := none, ltaName := "" }

/-- C10 (refuting the no-exception claim). `getContractList` builds the
measures object keyed by school name only, and the object does hold the
measures of `School A` (second conjunct); but `contractListDTO` indexes it
first by contract name, so `schoolsMeasures["Contract 1"]` is `undefined`
and indexing that by the school name throws a TypeError: the whole read
path fails on any contract that has a school, instead of handing
`evaluateMeasures` a defined array. -/
theorem getContractList_measures_key_mismatch :
    getContractList [contractWithSchool] [] []
        (fun _ => [{ metricId := 1, avg := 5 }]) =
      .error "TypeError: Cannot read properties of undefined" ∧
    (getKey (buildSchoolsMeasures (fun _ => [{ metricId := 1, avg := 5 }]) []
      [contractWithSchool]) "School A").isSome = true := by
  exact ⟨by decide, by decide⟩

/-- A concrete isp-role user of country 1 named `ISP X`. -/
def userIspBR : UserQ := { name := "ISP X", countryId := 1, roles := ["ISP"] }

/-- A concrete contract row visible to `userIspBR`. -/
def contractRowBR : ContractScopeRow :=
  { countryId := 1, governmentBehalf := false, ispName := "ISP X" }

/-- A concrete draft row visible to `userIspBR`. -/
def draftRowBR : DraftScopeRow :=
  { countryId := 1, governmentBehalf := false, ispName := "ISP X" }

/-- A concrete LTA row visible to `userIspBR`. -/
def ltaRowBR : LtaScopeRow := { countryId := 1, ispNames := ["ISP X", "ISP Y"] }

/-- Concrete instantiation of the scope equivalence for an isp-role user:
the accumulated filters accept the matching rows and the spec-side
conjunction of restrictions holds of them. -/
theorem queryBuilder_scope_conjunction_witness :
    contractScopeSpec userIspBR contractRowBR ∧
    draftScopeSpec userIspBR draftRowBR ∧
    ltaScopeSpec userIspBR ltaRowBR := by
  have h := queryBuilder_scope_conjunction userIspBR contractRowBR draftRowBR ltaRowBR
  exact ⟨h.1.mp (by decide), h.2.1.mp (by decide), h.2.2.mp (by decide)⟩
